import Mathlib

/-!
Verification development for the photo-selector proof-of-concept:
a CLIP-based image search engine with optional auxiliary label fusion.

Scoring arithmetic is modelled over the rationals; the standalone
cosine-similarity helper (which uses a square root) is modelled over
the reals.  Model inference (embedding providers, classifier logits)
and the filesystem are inputs to the modelled operations, mirroring
their role as external collaborators.
-/

namespace PhotoSelector

/-- Dot product over index-aligned prefixes, as in the source's `dot`
loops (`for i < a.length: s += a[i] * b[i]`). -/
def dotProd {α : Type} [Add α] [Mul α] [Zero α] : List α → List α → α
  | a :: as, b :: bs => a * b + dotProd as bs
  | _, _ => 0

/-- The extension allow-list from `types.ts`. -/
def SUPPORTED_IMAGE_FORMATS : List String :=
  [".jpg", ".jpeg", ".png", ".bmp", ".webp", ".gif"]

/-- Node `path.extname` for a bare file name: the suffix from the last
dot, empty when there is no dot or the only dot leads the name. -/
def extname (s : String) : String :=
  match (s.toList.enum.filter (fun p => p.2 = '.')).getLast? with
  | none => ""
  | some p => if p.1 = 0 then "" else String.mk (s.toList.drop p.1)

/-- Model of `String.toLowerCase`, character by character. -/
def toLower (s : String) : String :=
  String.mk (s.toList.map Char.toLower)

/-- Predicate `isImageFile` from `utils.ts`: the lowercased extension is in the
allow-list. -/
def isImageFile (filename : String) : Bool :=
  SUPPORTED_IMAGE_FORMATS.contains (toLower (extname filename))

/-- A directory entry together with its `stat().isFile()` answer. -/
structure DirEntry where
  name : String
  isFile : Bool

/-- A raw filesystem error, carrying its Node `code`. -/
structure FsError where
  code : String
deriving DecidableEq

/-- Error kinds surfaced by the searcher. -/
inductive SearchError where
  | notInitialized
  | directoryNotFound (dir : String)
  | fs (e : FsError)
deriving DecidableEq

/-- The message attached to each thrown error in the source. -/
def SearchError.message : SearchError → String
  | .notInitialized => "Model not initialized. Call initialize() first."
  | .directoryNotFound dir => "Directory not found: " ++ dir
  | .fs e => e.code

/-- Node `path.join` restricted to a directory plus a bare name. -/
def joinPath (dir name : String) : String := dir ++ "/" ++ name

/-- Node `path.basename` restricted to paths as produced by `joinPath`. -/
def basename (p : String) : String :=
  String.mk ((p.toList.reverse.takeWhile (fun c => c ≠ '/')).reverse)

/-- Function `getImageFiles` from `utils.ts`, with the directory listing supplied
as an explicit filesystem answer: keeps regular files with a supported
extension, maps `ENOENT` to the directory-not-found error, and passes
any other filesystem error through untouched. -/
def getImageFiles (listing : Except FsError (List DirEntry))
    (directory : String) : Except SearchError (List String) :=
  match listing with
  | .ok files =>
      .ok ((files.filter (fun f => f.isFile && isImageFile f.name)).map
        (fun f => joinPath directory f.name))
  | .error e =>
      if e.code = "ENOENT" then .error (.directoryNotFound directory)
      else .error (.fs e)

/-- Record `SearchResult` from `types.ts`. -/
structure SearchResult where
  imagePath : String
  similarity : ℚ
  fileName : String
  rank : Nat
deriving DecidableEq

/-- Record `SearchConfig` from `types.ts`, with its documented defaults. -/
structure SearchConfig where
  imageFolder : String
  query : String
  threshold : ℚ := 3 / 10
  maxResults : Nat := 100

/-- Record `SearchStats` from `types.ts` (wall-clock time modelled as zero). -/
structure SearchStats where
  totalImages : Nat
  matchingImages : Nat
  processingTimeMs : Nat
  query : String

/-- Record `SearchResponse` from `types.ts`. -/
structure SearchResponse where
  results : List SearchResult
  stats : SearchStats

/-- The sort comparator of `search`: `(a, b) => b.similarity - a.similarity`
as a boolean "a may precede b" test. -/
def simLE (a b : SearchResult) : Bool :=
  decide (b.similarity ≤ a.similarity)

/-- The filtering loop of `search`: keep each scored path whose score
meets the threshold, building a result with rank 0. -/
def filteredResults (scored : List (String × ℚ)) (threshold : ℚ) :
    List SearchResult :=
  scored.filterMap (fun p =>
    if threshold ≤ p.2 then
      some { imagePath := p.1, similarity := p.2,
             fileName := basename p.1, rank := 0 }
    else none)

/-- The `forEach((r, idx) => r.rank = idx + 1)` pass of `search`. -/
def assignRanks (l : List SearchResult) : List SearchResult :=
  l.enum.map (fun p => { p.2 with rank := p.1 + 1 })

/-- The ranking pipeline of `search` (lines 190-205): filter by
threshold, stable sort descending by similarity, truncate to
`maxResults`, assign 1-based ranks. -/
def searchPipeline (scored : List (String × ℚ)) (threshold : ℚ)
    (maxResults : Nat) : List SearchResult :=
  assignRanks (((filteredResults scored threshold).mergeSort simLE).take maxResults)

/-- The searcher's fields that `ensureInitialized` inspects. -/
structure SearcherState where
  isInitialized : Bool
  hasModel : Bool
  hasProcessor : Bool

/-- Guard `ensureInitialized`: the guard holds when the flag is set and both
collaborators are present. -/
def ensureInitialized (st : SearcherState) : Bool :=
  st.isInitialized && st.hasModel && st.hasProcessor

/-- Method `search` from `JinaClipSearch.ts`, with the filesystem listing and
the embedding provider supplied as inputs.  Returns the result of the
call together with the (unchanged) searcher state. -/
def search (st : SearcherState) (listing : Except FsError (List DirEntry))
    (imageEmbedOf : String → List ℚ) (textEmbedOf : String → List ℚ)
    (cfg : SearchConfig) :
    Except SearchError SearchResponse × SearcherState :=
  if !ensureInitialized st then (.error .notInitialized, st)
  else
    match getImageFiles listing cfg.imageFolder with
    | .error e => (.error e, st)
    | .ok imagePaths =>
        if imagePaths.length = 0 then
          (.ok { results := [],
                 stats := { totalImages := 0, matchingImages := 0,
                            processingTimeMs := 0, query := cfg.query } }, st)
        else
          let imageEmbeddings := imagePaths.map imageEmbedOf
          let textEmbedding := textEmbedOf cfg.query
          let limited := searchPipeline
            (imagePaths.zip (imageEmbeddings.map (fun v => dotProd v textEmbedding)))
            cfg.threshold cfg.maxResults
          (.ok { results := limited,
                 stats := { totalImages := imagePaths.length,
                            matchingImages := limited.length,
                            processingTimeMs := 0, query := cfg.query } }, st)

/-- Method `searchMultiple` from `JinaClipSearch.ts`: one `search` per query,
any failure aborting the whole call. -/
def searchMultiple (st : SearcherState)
    (listing : Except FsError (List DirEntry))
    (imageEmbedOf : String → List ℚ) (textEmbedOf : String → List ℚ)
    (imageFolder : String) (queries : List String) (threshold : ℚ) :
    Except SearchError (List (String × SearchResponse)) × SearcherState :=
  if !ensureInitialized st then (.error .notInitialized, st)
  else
    (queries.mapM (fun q =>
      (search st listing imageEmbedOf textEmbedOf
        { imageFolder := imageFolder, query := q, threshold := threshold }).1.map
        (fun r => (q, r))), st)

/-- Method `selfCheck` from `JinaClipSearch.ts`, reduced to its control flow:
guard on initialization, then enumerate (its console output is not
modelled). -/
def selfCheck (st : SearcherState)
    (listing : Except FsError (List DirEntry)) :
    Except SearchError Unit × SearcherState :=
  if !ensureInitialized st then (.error .notInitialized, st)
  else
    match getImageFiles listing "" with
    | .error e => (.error e, st)
    | .ok _ => (.ok (), st)

/-- The MobileNet scorer's fields that its guard inspects, plus its
label vocabulary. -/
structure MobileNetState where
  isInitialized : Bool
  hasSession : Bool
  labels : List String

/-- The `this.labels[i] || 'unknown'` lookup in `getTopLabels`: a
missing index — or an empty string, which is falsy — becomes
`"unknown"`. -/
def labelAt (labels : List String) (i : Nat) : String :=
  let s := labels.getD i ""
  if s = "" then "unknown" else s

/-- Method `getTopLabels` from `MobileNetScorer`: guard on initialization,
then either recover from a failed or undefined inference with an empty
list, or rank logit indices descending, keep the top `topK`, and map
them to labels. -/
def getTopLabels (st : MobileNetState)
    (inference : Except String (Option (List ℚ))) (topK : Nat) :
    Except String (List String) :=
  if !(st.isInitialized && st.hasSession) then
    .error "MobileNet not initialized. Call initialize() first."
  else
    .ok (match inference with
      | .error _ => []
      | .ok none => []
      | .ok (some logits) =>
          let indexed := logits.enum
          let sorted := indexed.mergeSort (fun a b => decide (b.2 ≤ a.2))
          (sorted.take topK).map (fun p => labelAt st.labels p.1))

/-- Method `computeSemanticScore` from `MobileNetScorer`: dot products of the
query embedding with each predicted label's table entry, maximised;
`0` when no predicted label is in the table or no labels were
predicted. -/
def computeSemanticScore (labelEmbeddings : List (String × List ℚ))
    (imageLabels : List String) (queryEmbedding : List ℚ) : ℚ :=
  if imageLabels = [] then 0
  else
    match imageLabels.filterMap (fun label =>
        (labelEmbeddings.lookup label).map
          (fun e => dotProd queryEmbedding e)) with
    | [] => 0
    | s :: rest => rest.foldl max s

/-- The `reduce` computing a sum of squares in `cosineSimilarity` and
the self-check's `l2`. -/
def sumSq (v : List ℝ) : ℝ := v.foldl (fun s x => s + x * x) 0

open Classical in
/-- Method `cosineSimilarity` from `JinaClipSearch.ts`: dot product over the
product of magnitudes, with a zero magnitude short-circuiting to `0`. -/
noncomputable def cosineSimilarity (vecA vecB : List ℝ) : ℝ :=
  if Real.sqrt (sumSq vecA) = 0 ∨ Real.sqrt (sumSq vecB) = 0 then 0
  else dotProd vecA vecB / (Real.sqrt (sumSq vecA) * Real.sqrt (sumSq vecB))

/-- Modelled from the spec: the clamp of `fusionWeight` to `[0, 1]`
(the fused search variant is absent from the sources; only its
configuration type and caller survive). -/
def clamp01 (w : ℚ) : ℚ := max 0 (min 1 w)

/-- Modelled from the spec: the per-image fused score — the linear
interpolation `(1 - w) * visual + w * secondary` with the clamped
weight when auxiliary scoring is enabled and available, and the visual
score alone otherwise. -/
def fusedScoreOf (enableAux auxAvailable : Bool) (w visual secondary : ℚ) : ℚ :=
  if enableAux && auxAvailable then
    (1 - clamp01 w) * visual + clamp01 w * secondary
  else visual

/-- Modelled from the spec: the score list of a fused search — for each
image, the fusion of its visual score (dot product with the query
embedding) with its label-semantic score (`computeSemanticScore` over
its predicted labels). -/
def fusedScores (enableAux auxAvailable : Bool) (w : ℚ)
    (imageEmbeddings : List (List ℚ)) (labelsPerImage : List (List String))
    (table : List (String × List ℚ)) (textEmbedding : List ℚ) : List ℚ :=
  (List.range imageEmbeddings.length).map (fun i =>
    fusedScoreOf enableAux auxAvailable w
      (dotProd (imageEmbeddings.getD i []) textEmbedding)
      (computeSemanticScore table (labelsPerImage.getD i []) textEmbedding))

/-- The spec's ordering on enumerated scored entries: strictly greater
score first, ties broken by smaller enumeration index. -/
def specLE (a b : Nat × SearchResult) : Bool :=
  decide (b.2.similarity < a.2.similarity) ||
    (decide (a.2.similarity = b.2.similarity) && decide (a.1 ≤ b.1))

/-- The ranked result list as the spec words it: the thresholded
entries, tagged with their enumeration index, sorted by descending
score with ties broken by enumeration order, untagged, truncated, and
ranked. -/
def specRankedResults (scored : List (String × ℚ)) (threshold : ℚ)
    (maxResults : Nat) : List SearchResult :=
  assignRanks
    ((((filteredResults scored threshold).enum.mergeSort specLE).map
      (fun p => p.2)).take maxResults)

/-! ### Helper lemmas -/

theorem clamp01_nonneg (w : ℚ) : 0 ≤ clamp01 w := le_max_left 0 _

theorem clamp01_le_one (w : ℚ) : clamp01 w ≤ 1 :=
  max_le (by norm_num) (min_le_left 1 w)

theorem clamp01_zero : clamp01 0 = 0 := by
  unfold clamp01
  norm_num

theorem clamp01_one : clamp01 1 = 1 := by
  unfold clamp01
  norm_num

/-! ### C5 -/

/-- C5: with the fusion weight at 0 the fused score is exactly the
visual score (in every enable/availability configuration), and with
the fusion weight at 1 (fusion active) it is exactly the secondary
label-semantic score. -/
theorem fusion_weight_zero_and_one (e a : Bool) (v s : ℚ) :
    fusedScoreOf e a 0 v s = v ∧ fusedScoreOf true true 1 v s = s := by
  constructor
  · unfold fusedScoreOf
    rw [clamp01_zero]
    split <;> ring
  · unfold fusedScoreOf
    rw [clamp01_one]
    simp

/-! ### C1 -/

/-- C1: the clamped fusion weight lies in `[0, 1]`, and the score of
the `i`-th image is the dot product of its embedding with the query
embedding when auxiliary scoring is off or unavailable, and otherwise
the linear interpolation of that dot product with the label-semantic
secondary score under the clamped weight. -/
theorem fused_score_formula (e a : Bool) (w : ℚ)
    (imageEmbeddings : List (List ℚ)) (labelsPerImage : List (List String))
    (table : List (String × List ℚ)) (textEmbedding : List ℚ) (i : Nat)
    (h : i < imageEmbeddings.length) :
    0 ≤ clamp01 w ∧ clamp01 w ≤ 1 ∧
    (fusedScores e a w imageEmbeddings labelsPerImage table textEmbedding).getD i 0 =
      (if e && a then
        (1 - clamp01 w) * dotProd (imageEmbeddings.getD i []) textEmbedding
          + clamp01 w *
            computeSemanticScore table (labelsPerImage.getD i []) textEmbedding
      else dotProd (imageEmbeddings.getD i []) textEmbedding) := by
  refine ⟨clamp01_nonneg w, clamp01_le_one w, ?_⟩
  unfold fusedScores
  rw [List.getD_eq_getElem?_getD, List.getElem?_map, List.getElem?_range h]
  simp [fusedScoreOf]

/-- Witness for C1 at a concrete single-image input. -/
theorem fused_score_formula_witness :
    0 ≤ clamp01 (1 / 2) ∧ clamp01 (1 / 2) ≤ 1 ∧
    (fusedScores true true (1 / 2) [[1]] [["cat"]] [("cat", [2])] [3]).getD 0 0 =
      (if true && true then
        (1 - clamp01 (1 / 2)) * dotProd (([[1]] : List (List ℚ)).getD 0 []) [3]
          + clamp01 (1 / 2) *
            computeSemanticScore [("cat", [2])] ([["cat"]].getD 0 []) [3]
      else dotProd (([[1]] : List (List ℚ)).getD 0 []) [3]) :=
  fused_score_formula true true (1 / 2) [[1]] [["cat"]] [("cat", [2])] [3] 0
    (by decide)

/-! ### C10 -/

/-- C10: before initialization has completed (the flag is still false),
`search`, `searchMultiple` and `selfCheck` all fail with the
not-initialized error — whose message is exactly the one thrown by
`ensureInitialized` — produce no results, and leave the state
unchanged. -/
theorem uninitialized_calls_throw (st : SearcherState)
    (h : st.isInitialized = false)
    (listing : Except FsError (List DirEntry))
    (iE tE : String → List ℚ) (cfg : SearchConfig)
    (folder : String) (queries : List String) (t : ℚ) :
    search st listing iE tE cfg = (.error .notInitialized, st) ∧
    searchMultiple st listing iE tE folder queries t =
      (.error .notInitialized, st) ∧
    selfCheck st listing = (.error .notInitialized, st) ∧
    SearchError.notInitialized.message =
      "Model not initialized. Call initialize() first." := by
  have he : ensureInitialized st = false := by
    simp [ensureInitialized, h]
  refine ⟨?_, ?_, ?_, rfl⟩ <;>
    simp [search, searchMultiple, selfCheck, he]

/-- Pre-initialization searcher state. -/
def freshSearcher : SearcherState :=
  { isInitialized := false, hasModel := false, hasProcessor := false }

/-- Trivial embedding provider used by concrete witnesses. -/
def zeroEmbed : String → List ℚ := fun _ => []

/-- Witness for C10 on a fresh searcher. -/
theorem uninitialized_calls_throw_witness :
    search freshSearcher (.ok []) zeroEmbed zeroEmbed
        { imageFolder := "imgs", query := "dogs" } =
      (.error .notInitialized, freshSearcher) ∧
    searchMultiple freshSearcher (.ok []) zeroEmbed zeroEmbed "imgs" ["dogs"]
        (3 / 10) =
      (.error .notInitialized, freshSearcher) ∧
    selfCheck freshSearcher (.ok []) = (.error .notInitialized, freshSearcher) ∧
    SearchError.notInitialized.message =
      "Model not initialized. Call initialize() first." :=
  uninitialized_calls_throw freshSearcher rfl (.ok []) zeroEmbed zeroEmbed
    { imageFolder := "imgs", query := "dogs" } "imgs" ["dogs"] (3 / 10)

/-! ### C7 -/

/-- C7: when the directory listing fails, enumeration maps the `ENOENT`
code to the directory-not-found error and passes any other filesystem
error through unmodified; `search` then fails with that same error and
returns no result list. -/
theorem enumeration_failure_propagates (st : SearcherState) (e : FsError)
    (dir : String) (iE tE : String → List ℚ) (cfg : SearchConfig)
    (hinit : ensureInitialized st = true) :
    getImageFiles (.error e) dir =
      .error (if e.code = "ENOENT" then .directoryNotFound dir else .fs e) ∧
    (search st (.error e) iE tE cfg).1 =
      .error (if e.code = "ENOENT" then .directoryNotFound cfg.imageFolder
              else .fs e) := by
  constructor
  · by_cases hc : e.code = "ENOENT" <;> simp [getImageFiles, hc]
  · by_cases hc : e.code = "ENOENT" <;>
      simp [search, hinit, getImageFiles, hc]

/-- Fully initialized searcher state. -/
def readySearcher : SearcherState :=
  { isInitialized := true, hasModel := true, hasProcessor := true }

/-- Witness for C7 at a missing directory and at an unrelated
filesystem error. -/
theorem enumeration_failure_propagates_witness :
    (getImageFiles (.error ⟨"ENOENT"⟩) "imgs" =
        .error (if ("ENOENT" : String) = "ENOENT"
                then .directoryNotFound "imgs" else .fs ⟨"ENOENT"⟩) ∧
      (search readySearcher (.error ⟨"ENOENT"⟩) zeroEmbed zeroEmbed
          { imageFolder := "imgs", query := "dogs" }).1 =
        .error (if ("ENOENT" : String) = "ENOENT"
                then .directoryNotFound "imgs" else .fs ⟨"ENOENT"⟩)) ∧
    (getImageFiles (.error ⟨"EACCES"⟩) "imgs" =
        .error (if ("EACCES" : String) = "ENOENT"
                then .directoryNotFound "imgs" else .fs ⟨"EACCES"⟩) ∧
      (search readySearcher (.error ⟨"EACCES"⟩) zeroEmbed zeroEmbed
          { imageFolder := "imgs", query := "dogs" }).1 =
        .error (if ("EACCES" : String) = "ENOENT"
                then .directoryNotFound "imgs" else .fs ⟨"EACCES"⟩)) :=
  ⟨enumeration_failure_propagates readySearcher ⟨"ENOENT"⟩ "imgs" zeroEmbed
      zeroEmbed { imageFolder := "imgs", query := "dogs" } rfl,
    enumeration_failure_propagates readySearcher ⟨"EACCES"⟩ "imgs" zeroEmbed
      zeroEmbed { imageFolder := "imgs", query := "dogs" } rfl⟩

/-! ### C4 -/

/-- C4: whenever `search` over a listed folder returns a response, its
`totalImages` counts exactly the regular files with a supported
extension (independently of the threshold), its `matchingImages` is
the length of the returned (truncated) result list, and an empty
folder yields an empty result list with both counters zero. -/
theorem search_stats_spec (st : SearcherState) (entries : List DirEntry)
    (iE tE : String → List ℚ) (cfg : SearchConfig) (resp : SearchResponse)
    (hinit : ensureInitialized st = true)
    (hresp : (search st (.ok entries) iE tE cfg).1 = .ok resp) :
    resp.stats.totalImages =
      (entries.filter (fun f => f.isFile && isImageFile f.name)).length ∧
    resp.stats.matchingImages = resp.results.length ∧
    (entries = [] → resp.results = [] ∧ resp.stats.totalImages = 0 ∧
      resp.stats.matchingImages = 0) := by
  rw [search] at hresp
  rw [hinit] at hresp
  simp only [Bool.not_true, Bool.false_eq_true, if_false, getImageFiles] at hresp
  by_cases hn :
      ((entries.filter (fun f => f.isFile && isImageFile f.name)).map
        (fun f => joinPath cfg.imageFolder f.name)).length = 0
  · rw [if_pos hn] at hresp
    simp only [Except.ok.injEq] at hresp
    subst hresp
    rw [List.length_map] at hn
    refine ⟨by simpa using hn.symm, rfl, fun _ => ⟨rfl, rfl, rfl⟩⟩
  · rw [if_neg hn] at hresp
    simp only [Except.ok.injEq] at hresp
    subst hresp
    refine ⟨by simp, rfl, fun he => ?_⟩
    subst he
    simp at hn

/-- Witness for C4 on an empty folder (scenario A). -/
theorem search_stats_spec_witness :
    ({ results := [],
       stats := { totalImages := 0, matchingImages := 0,
                  processingTimeMs := 0, query := "dogs" } } :
        SearchResponse).stats.totalImages =
      (([] : List DirEntry).filter
        (fun f => f.isFile && isImageFile f.name)).length ∧
    ({ results := [],
       stats := { totalImages := 0, matchingImages := 0,
                  processingTimeMs := 0, query := "dogs" } } :
        SearchResponse).stats.matchingImages =
      ({ results := [],
         stats := { totalImages := 0, matchingImages := 0,
                    processingTimeMs := 0, query := "dogs" } } :
          SearchResponse).results.length ∧
    (([] : List DirEntry) = [] →
      ({ results := [],
         stats := { totalImages := 0, matchingImages := 0,
                    processingTimeMs := 0, query := "dogs" } } :
          SearchResponse).results = [] ∧
      ({ results := [],
         stats := { totalImages := 0, matchingImages := 0,
                    processingTimeMs := 0, query := "dogs" } } :
          SearchResponse).stats.totalImages = 0 ∧
      ({ results := [],
         stats := { totalImages := 0, matchingImages := 0,
                    processingTimeMs := 0, query := "dogs" } } :
          SearchResponse).stats.matchingImages = 0) :=
  search_stats_spec readySearcher [] zeroEmbed zeroEmbed
    { imageFolder := "imgs", query := "dogs" }
    { results := [],
      stats := { totalImages := 0, matchingImages := 0,
                 processingTimeMs := 0, query := "dogs" } }
    rfl (by simp [search, getImageFiles, readySearcher, ensureInitialized])

/-! ### C8 -/

/-- C8: once the auxiliary classifier is initialized, every
classification returns an ordered label list of length at most `topK`,
and a failed or undefined inference yields the empty list instead of
an error. -/
theorem getTopLabels_spec (st : MobileNetState) (hi : st.isInitialized = true)
    (hs : st.hasSession = true)
    (inference : Except String (Option (List ℚ))) (topK : Nat)
    (ls : List String) (hls : getTopLabels st inference topK = .ok ls) :
    ls.length ≤ topK ∧
    (∀ msg, getTopLabels st (.error msg) topK = .ok []) ∧
    getTopLabels st (.ok none) topK = .ok [] := by
  have hg : (st.isInitialized && st.hasSession) = true := by simp [hi, hs]
  refine ⟨?_, fun msg => by simp [getTopLabels, hg], by simp [getTopLabels, hg]⟩
  rw [getTopLabels.eq_def, hg] at hls
  simp only [Bool.not_true, Bool.false_eq_true, if_false, Except.ok.injEq] at hls
  subst hls
  match inference with
  | .error _ => simp
  | .ok none => simp
  | .ok (some logits) =>
      simp only [List.length_map, List.length_take]
      exact min_le_left _ _

/-- Initialized auxiliary classifier used by the C8 witness. -/
def mobileReady : MobileNetState :=
  { isInitialized := true, hasSession := true, labels := ["a", "b", "c"] }

/-- Witness for C8 at a one-logit inference, a failed inference, and an
undefined output. -/
theorem getTopLabels_spec_witness :
    (["a"] : List String).length ≤ 2 ∧
    getTopLabels mobileReady (.error "boom") 2 = .ok [] ∧
    getTopLabels mobileReady (.ok none) 2 = .ok [] := by
  obtain ⟨h1, h2, h3⟩ :=
    getTopLabels_spec mobileReady rfl rfl (.ok (some [5])) 2 ["a"]
      (by simp [getTopLabels, mobileReady, labelAt, List.enum, List.enumFrom])
  exact ⟨h1, h2 "boom", h3⟩

/-! ### C6 helpers: `foldl max` computes a maximum -/

theorem le_foldl_max {α : Type} [LinearOrder α] :
    ∀ (l : List α) (a x : α), x = a ∨ x ∈ l → x ≤ l.foldl max a
  | [], a, x, hx => by
      rcases hx with h | h
      · simp [h]
      · simp at h
  | b :: t, a, x, hx => by
      rcases hx with h | h
      · calc x = a := h
          _ ≤ max a b := le_max_left a b
          _ ≤ (b :: t).foldl max a := by
              simpa using le_foldl_max t (max a b) (max a b) (Or.inl rfl)
      · rcases List.mem_cons.mp h with h | h
        · calc x = b := h
            _ ≤ max a b := le_max_right a b
            _ ≤ (b :: t).foldl max a := by
                simpa using le_foldl_max t (max a b) (max a b) (Or.inl rfl)
        · simpa using le_foldl_max t (max a b) x (Or.inr h)

theorem foldl_max_mem {α : Type} [LinearOrder α] :
    ∀ (l : List α) (a : α), l.foldl max a = a ∨ l.foldl max a ∈ l
  | [], a => Or.inl rfl
  | b :: t, a => by
      rcases foldl_max_mem t (max a b) with h | h
      · rcases max_choice a b with hab | hab
        · left
          simpa [hab] using h
        · right
          simp only [List.foldl_cons]
          rw [h, hab]
          exact List.mem_cons_self b t
      · right
        simp only [List.foldl_cons]
        exact List.mem_cons_of_mem b h

/-! ### C6 -/

/-- C6: when no predicted label has a table entry (in particular when
no labels were predicted) the secondary score is `0`; and whenever
some predicted label `l` has a table entry, the secondary score is an
upper bound for `l`'s dot product with the query and is attained at
some predicted label's table entry — a label missing from the table is
simply skipped rather than an error. -/
theorem computeSemanticScore_max (table : List (String × List ℚ))
    (labels : List String) (q : List ℚ) :
    ((∀ l ∈ labels, table.lookup l = none) →
      computeSemanticScore table labels q = 0) ∧
    (∀ l e, l ∈ labels → table.lookup l = some e →
      dotProd q e ≤ computeSemanticScore table labels q ∧
      ∃ l2 e2, l2 ∈ labels ∧ table.lookup l2 = some e2 ∧
        computeSemanticScore table labels q = dotProd q e2) := by
  constructor
  · intro hall
    rw [computeSemanticScore]
    split
    · rfl
    · have hnil : labels.filterMap (fun label =>
          (table.lookup label).map (fun e => dotProd q e)) = [] := by
        rw [List.filterMap_eq_nil_iff]
        intro l hl
        rw [hall l hl]
        rfl
      rw [hnil]
  · intro l e hl he
    have hmem : dotProd q e ∈ labels.filterMap (fun label =>
        (table.lookup label).map (fun e2 => dotProd q e2)) := by
      rw [List.mem_filterMap]
      exact ⟨l, hl, by rw [he]; rfl⟩
    have hne : labels ≠ [] := by
      intro hnil
      rw [hnil] at hl
      simp at hl
    rw [computeSemanticScore, if_neg hne]
    match hsims : labels.filterMap (fun label =>
        (table.lookup label).map (fun e2 => dotProd q e2)) with
    | [] => rw [hsims] at hmem; simp at hmem
    | s :: rest =>
        rw [hsims] at hmem
        constructor
        · exact le_foldl_max rest s (dotProd q e)
            (by simpa using List.mem_cons.mp hmem)
        · have hin : rest.foldl max s ∈ s :: rest := by
            rcases foldl_max_mem rest s with h | h
            · rw [h]; exact List.mem_cons_self s rest
            · exact List.mem_cons_of_mem s h
          have : rest.foldl max s ∈ labels.filterMap (fun label =>
              (table.lookup label).map (fun e2 => dotProd q e2)) := by
            rw [hsims]; exact hin
          rw [List.mem_filterMap] at this
          obtain ⟨l2, hl2, hf⟩ := this
          match he2 : table.lookup l2 with
          | none => rw [he2] at hf; simp at hf
          | some e2 =>
              rw [he2] at hf
              simp only [Option.map_some', Option.some.injEq] at hf
              exact ⟨l2, e2, hl2, he2, hf.symm⟩

/-- Witness for C6: a predicted label absent from the table yields a
zero secondary score. -/
theorem computeSemanticScore_max_witness :
    computeSemanticScore [("dog", [1])] ["cat"] [2] = 0 :=
  (computeSemanticScore_max [("dog", [1])] ["cat"] [2]).1
    (by simp [List.lookup])

/-! ### C2 helpers -/

/-- The spec's tie-breaking order coincides with the stability order of
the code's stable sort on enumerated entries. -/
theorem specLE_eq : specLE = List.enumLE simLE := by
  funext a b
  simp only [specLE, List.enumLE, simLE]
  rcases lt_trichotomy b.2.similarity a.2.similarity with h | h | h
  · simp [h, le_of_lt h, not_le.mpr h]
  · simp [h]
  · simp [not_le.mpr h, not_lt.mpr (le_of_lt h), ne_of_lt h]

/-! ### C2 -/

/-- C2: the returned result list is exactly the thresholded entries
sorted by descending score with ties broken by original enumeration
order, truncated to `maxResults`, with ranks assigned as 1-based
positions — the code's stable sort realizes the spec's tie-broken
ordering. -/
theorem searchPipeline_eq_specRanking (scored : List (String × ℚ)) (t : ℚ)
    (m : Nat) : searchPipeline scored t m = specRankedResults scored t m := by
  unfold searchPipeline specRankedResults
  rw [specLE_eq, List.mergeSort_enum]

/-! ### C3 helpers -/

theorem simLE_trans (a b c : SearchResult) (hab : simLE a b) (hbc : simLE b c) :
    simLE a c := by
  simp only [simLE, decide_eq_true_eq] at *
  exact le_trans hbc hab

theorem simLE_total (a b : SearchResult) : simLE a b || simLE b a := by
  simp only [simLE, Bool.or_eq_true, decide_eq_true_eq]
  exact le_total b.similarity a.similarity

theorem mem_filteredResults_le {scored : List (String × ℚ)} {t : ℚ}
    {x : SearchResult} (hx : x ∈ filteredResults scored t) :
    t ≤ x.similarity := by
  rw [filteredResults, List.mem_filterMap] at hx
  obtain ⟨p, _, hfx⟩ := hx
  by_cases hc : t ≤ p.2
  · rw [if_pos hc] at hfx
    simp only [Option.some.injEq] at hfx
    rw [← hfx]
    exact hc
  · rw [if_neg hc] at hfx
    simp at hfx

theorem assignRanks_map_similarity (l : List SearchResult) :
    (assignRanks l).map (fun r => r.similarity) =
      l.map (fun r => r.similarity) := by
  unfold assignRanks
  rw [List.map_map]
  have h1 : ((fun r => r.similarity) ∘
      fun p : Nat × SearchResult => { p.2 with rank := p.1 + 1 }) =
      ((fun r => r.similarity) ∘ Prod.snd) := rfl
  rw [h1, ← List.map_map, List.enum_map_snd]

theorem enumFrom_map_fst_succ :
    ∀ (k : Nat) (l : List SearchResult),
      (l.enumFrom k).map (fun p => p.1 + 1) = List.range' (k + 1) l.length
  | _, [] => rfl
  | k, a :: t => by
      simp only [List.enumFrom, List.map_cons, List.length_cons,
        List.range'_succ]
      exact congrArg (List.cons (k + 1)) (enumFrom_map_fst_succ (k + 1) t)

theorem assignRanks_map_rank (l : List SearchResult) :
    (assignRanks l).map (fun r => r.rank) = List.range' 1 l.length := by
  unfold assignRanks
  rw [List.map_map]
  have h : ((fun r => r.rank) ∘
      fun p : Nat × SearchResult => { p.2 with rank := p.1 + 1 }) =
      (fun p : Nat × SearchResult => p.1 + 1) := rfl
  rw [h]
  simpa [List.enum] using enumFrom_map_fst_succ 0 l

theorem assignRanks_length (l : List SearchResult) :
    (assignRanks l).length = l.length := by
  simp [assignRanks, List.enum_length]

/-! ### C3 -/

/-- C3: every returned result meets the threshold, the similarity
values are non-increasing along the returned order, and the ranks are
exactly the contiguous integers from 1 to the length of the result
list. -/
theorem search_result_invariants (scored : List (String × ℚ)) (t : ℚ)
    (m : Nat) :
    (∀ r ∈ searchPipeline scored t m, t ≤ r.similarity) ∧
    (searchPipeline scored t m).Pairwise
      (fun a b => b.similarity ≤ a.similarity) ∧
    (searchPipeline scored t m).map (fun r => r.rank) =
      List.range' 1 (searchPipeline scored t m).length := by
  refine ⟨?_, ?_, ?_⟩
  · intro r hr
    have h1 : r.similarity ∈
        (searchPipeline scored t m).map (fun r => r.similarity) :=
      List.mem_map_of_mem _ hr
    rw [searchPipeline, assignRanks_map_similarity, List.mem_map] at h1
    obtain ⟨x, hx, hsim⟩ := h1
    have hx2 : x ∈ (filteredResults scored t).mergeSort simLE :=
      List.mem_of_mem_take hx
    rw [List.mem_mergeSort] at hx2
    rw [← hsim]
    exact mem_filteredResults_le hx2
  · rw [searchPipeline]
    have hsorted : ((filteredResults scored t).mergeSort simLE).Pairwise
        (fun a b => simLE a b) :=
      List.sorted_mergeSort simLE_trans simLE_total _
    have h1 : ((filteredResults scored t).mergeSort simLE).Pairwise
        (fun a b : SearchResult => b.similarity ≤ a.similarity) :=
      hsorted.imp (by
        intro a b hab
        simpa [simLE] using hab)
    have h2 : (((filteredResults scored t).mergeSort simLE).take m).Pairwise
        (fun a b : SearchResult => b.similarity ≤ a.similarity) :=
      h1.sublist (List.take_sublist m _)
    have h3 : ((((filteredResults scored t).mergeSort simLE).take m).map
        (fun r => r.similarity)).Pairwise (fun x y : ℚ => y ≤ x) :=
      List.pairwise_map.mpr h2
    rw [← assignRanks_map_similarity] at h3
    exact List.pairwise_map.mp h3
  · rw [searchPipeline, assignRanks_map_rank, assignRanks_length]

/-- Witness for C3 at a concrete single-entry invocation. -/
theorem search_result_invariants_witness :
    (0 : ℚ) ≤ 2 ∧
    (searchPipeline [("imgs/x.jpg", 2)] 0 10).Pairwise
      (fun a b => b.similarity ≤ a.similarity) ∧
    (searchPipeline [("imgs/x.jpg", 2)] 0 10).map (fun r => r.rank) =
      List.range' 1 (searchPipeline [("imgs/x.jpg", 2)] 0 10).length := by
  obtain ⟨h1, h2, h3⟩ := search_result_invariants [("imgs/x.jpg", 2)] 0 10
  refine ⟨h1 ⟨"imgs/x.jpg", 2, basename "imgs/x.jpg", 1⟩ ?_, h2, h3⟩
  simp [searchPipeline, filteredResults, assignRanks, List.enum, List.enumFrom,
    show ((0 : ℚ) ≤ 2) by norm_num]

/-! ### C9 helpers -/

theorem foldl_add_sq (v : List ℝ) : ∀ c : ℝ,
    v.foldl (fun s x => s + x * x) c = c + dotProd v v := by
  induction v with
  | nil => intro c; simp [dotProd]
  | cons a t ih =>
      intro c
      simp only [List.foldl_cons]
      rw [ih]
      show c + a * a + dotProd t t = c + (a * a + dotProd t t)
      ring

theorem sumSq_eq_dotProd_self (v : List ℝ) : sumSq v = dotProd v v := by
  unfold sumSq
  rw [foldl_add_sq]
  ring

theorem dotProd_self_nonneg (v : List ℝ) : 0 ≤ dotProd v v := by
  induction v with
  | nil => simp [dotProd]
  | cons a t ih => exact add_nonneg (mul_self_nonneg a) ih

theorem dotProd_self_pos (v : List ℝ) (h : ∃ x ∈ v, x ≠ 0) :
    0 < dotProd v v := by
  induction v with
  | nil =>
      obtain ⟨x, hx, _⟩ := h
      simp at hx
  | cons a t ih =>
      obtain ⟨x, hx, hne⟩ := h
      rcases List.mem_cons.mp hx with rfl | hxt
      · exact add_pos_of_pos_of_nonneg (mul_self_pos.mpr hne)
          (dotProd_self_nonneg t)
      · exact add_pos_of_nonneg_of_pos (mul_self_nonneg a) (ih ⟨x, hxt, hne⟩)

theorem dotProd_self_zero (v : List ℝ) (h : ∀ x ∈ v, x = 0) :
    dotProd v v = 0 := by
  induction v with
  | nil => rfl
  | cons a t ih =>
      have ha : a = 0 := h a (List.mem_cons_self a t)
      have ht : dotProd t t = 0 := ih (fun x hx => h x (List.mem_cons_of_mem a hx))
      show a * a + dotProd t t = 0
      rw [ha, ht]
      ring

/-! ### C9 -/

/-- C9: for a vector with a nonzero entry, the cosine similarity with
itself is `1` — in particular within the self-check tolerance of
`10⁻⁶` — while any comparison involving an all-zero vector yields `0`
instead of dividing by zero. -/
theorem cosine_self_one_and_zero (v z : List ℝ) (hv : ∃ x ∈ v, x ≠ 0)
    (hz : ∀ x ∈ z, x = 0) :
    |cosineSimilarity v v - 1| ≤ 1 / 1000000 ∧
    ∀ u : List ℝ, cosineSimilarity u z = 0 ∧ cosineSimilarity z u = 0 := by
  constructor
  · have hpos : 0 < dotProd v v := dotProd_self_pos v hv
    have hS : sumSq v = dotProd v v := sumSq_eq_dotProd_self v
    have hsqrt : Real.sqrt (sumSq v) ≠ 0 := by
      rw [hS]
      exact ne_of_gt (Real.sqrt_pos.mpr hpos)
    have hcos : cosineSimilarity v v = 1 := by
      unfold cosineSimilarity
      rw [if_neg (by push_neg; exact ⟨hsqrt, hsqrt⟩)]
      rw [Real.mul_self_sqrt (by rw [hS]; exact hpos.le), hS]
      exact div_self (ne_of_gt hpos)
    rw [hcos]
    norm_num
  · intro u
    have hz0 : Real.sqrt (sumSq z) = 0 := by
      rw [sumSq_eq_dotProd_self, dotProd_self_zero z hz, Real.sqrt_zero]
    constructor
    · unfold cosineSimilarity
      rw [if_pos (Or.inr hz0)]
    · unfold cosineSimilarity
      rw [if_pos (Or.inl hz0)]

/-- Witness for C9 at the unit vector `[1]` and the zero vector `[0]`. -/
theorem cosine_self_one_and_zero_witness :
    |cosineSimilarity [1] [1] - 1| ≤ 1 / 1000000 ∧
    cosineSimilarity [1] [0] = 0 ∧ cosineSimilarity [0] [1] = 0 := by
  obtain ⟨h1, h2⟩ := cosine_self_one_and_zero [1] [0]
    ⟨1, List.mem_singleton_self 1, one_ne_zero⟩
    (by intro x hx; simpa using hx)
  exact ⟨h1, (h2 [1]).1, (h2 [1]).2⟩

end PhotoSelector
